import Mathlib

/-
Verification of the ramfs in-memory 9P2000 file server against its
specification. The definitions below are a shallow embedding of the Go
sources: file.go (the block-paged file buffer), node.go (nodes,
permissions, Wstat, walk), conn.go (the per-connection error latch) and
fid.go (Fid.Create). Machine integers are modelled as Nat with explicit
reduction modulo 2^32 or 2^64 where the Go code can overflow; Go maps are
modelled as association lists with unique keys; fallible operations
return an explicit result type; a Go panic is modelled as the none case
of an Option result.
-/

namespace Ramfs

/-- Byte values stored in file blocks (Go byte). -/
abbrev Byte := Nat

/-- Go map from block index to byte block (map with uint64 keys), as an
association list with unique keys. -/
abbrev BlockMap := List (Nat × List Byte)

/-- Lookup of a block index in the block map (Go map indexing). -/
def lookupBlock : BlockMap → Nat → Option (List Byte)
  | [], _ => none
  | (k, v) :: rest, i => if k = i then some v else lookupBlock rest i

/-- Store a block at an index (Go map assignment), keeping keys unique. -/
def insertBlock : BlockMap → Nat → List Byte → BlockMap
  | [], i, v => [(i, v)]
  | (k, w) :: rest, i, v =>
    if k = i then (i, v) :: rest else (k, w) :: insertBlock rest i v

/-- The file type of file.go: total size, sparse block map, block size. -/
structure file where
  size : Nat
  block : BlockMap
  blockSize : Nat
deriving DecidableEq

/-- newFile of file.go. -/
def newFile (blockSize : Nat) : file :=
  { size := 0, block := [], blockSize := blockSize }

/-- Errors of the storage layer: io.EOF or a perror string. -/
inductive Ferr where
  | eof
  | msg (s : String)
deriving DecidableEq

/-- Result of a fallible operation (a Go (value, error) pair). -/
inductive Res (α : Type) where
  | ok (val : α)
  | err (e : Ferr)
deriving DecidableEq

/-- Go copy(dst, src): the first min(len dst, len src) entries of dst are
overwritten with src; the length of dst is unchanged. -/
def goCopy (dst src : List Byte) : List Byte :=
  src.take dst.length ++ dst.drop src.length

/-- The loop of file.WriteAt (file.go lines 43 to 75). The fuel argument
makes the recursion structural; it is initialised to the length of p, which
bounds the iteration count because every iteration with a positive block
size copies at least one byte. The m = 0 exit is unreachable for a
positive block size. State carried: block map, size, the expanded flag,
current block number, offset inside the block, bytes written so far, and
the remaining data. -/
def writeLoop (bs : Nat) : Nat → BlockMap → Nat → Bool → Nat → Nat → Nat → List Byte →
    BlockMap × Nat × Nat
  | _, block, size, _, _, _, n, [] => (block, size, n)
  | 0, block, size, _, _, _, n, _ => (block, size, n)
  | fuel + 1, block, size, expanded, num, off, n, p =>
    let consume := if bs - off > p.length then p.length else bs - off
    let alloc :=
      match lookupBlock block num with
      | none => (List.replicate consume 0, true)
      | some b =>
        if off + consume > b.length then
          (b ++ List.replicate (off + consume - b.length) 0, true)
        else (b, expanded)
    let b1 := alloc.1
    let expanded1 := alloc.2
    let m := min (b1.length - off) p.length
    let block1 := insertBlock block num (b1.take off ++ goCopy (b1.drop off) p)
    let size1 :=
      if expanded1 then (if m > size then size + (m - size) else size + m) else size
    if m = 0 then (block1, size1, n)
    else writeLoop bs fuel block1 size1 expanded1 (num + 1) 0 (n + m) (p.drop m)

/-- file.WriteAt of file.go: negative offsets fail; an offset beyond the
current size is clamped to the size; the write is cut along block
boundaries by writeLoop. -/
def fileWriteAt (f : file) (p : List Byte) (offset : Int) : Res (Nat × file) :=
  if offset < 0 then .err (.msg "negative offset")
  else
    let off0 := offset.toNat
    let off1 := if off0 > f.size then f.size else off0
    let num := off1 / f.blockSize
    let off := off1 % f.blockSize
    let r := writeLoop f.blockSize p.length f.block f.size false num off 0 p
    .ok (r.2.2, { f with block := r.1, size := r.2.1 })

/-- The loop of file.ReadAt (file.go line 97 to 103). Arguments after the
block map: fuel (initialised to the clamped count, which bounds the
iterations), current block number, offset inside the block, remaining
count. Returns the bytes delivered. The remaining count is tested before
the available bytes, mirroring the short-circuit order of the Go loop
condition. -/
def readLoop (block : BlockMap) : Nat → Nat → Nat → Nat → List Byte
  | _, _, _, 0 => []
  | 0, _, _, _ => []
  | fuel + 1, num, off, count =>
    let avail := (match lookupBlock block num with | none => [] | some b => b).drop off
    if avail.length = 0 then []
    else
      let m := min count avail.length
      avail.take m ++ readLoop block fuel (num + 1) 0 (count - m)

/-- file.ReadAt of file.go: negative offsets fail; an offset strictly past
the size yields io.EOF; otherwise the requested count is clamped to
size - offset and successive blocks are copied until the count is
satisfied or a block yields no bytes. Returns (count delivered, data). -/
def fileReadAt (f : file) (plen : Nat) (offset : Int) : Res (Nat × List Byte) :=
  if offset < 0 then .err (.msg "negative offset")
  else
    let off := offset.toNat
    if off > f.size then .err .eof
    else
      let num := off / f.blockSize
      let count := if off + plen > f.size then f.size - off else plen
      let data := readLoop f.block count num (off % f.blockSize) count
      .ok (data.length, data)

/-- Byte list of an ASCII string literal (test data). -/
def strBytes (s : String) : List Byte := s.data.map Char.toNat

/-- Run a sequence of (data, offset) WriteAt calls, none if any fails. -/
def writeSeq : file → List (List Byte × Int) → Option file
  | f, [] => some f
  | f, (p, off) :: rest =>
    match fileWriteAt f p off with
    | .ok r => writeSeq r.2 rest
    | .err _ => none

/-- The seven writes of the block-write coalescing scenario. -/
def c1writes : List (List Byte × Int) :=
  [(strBytes "as", 12), (strBytes "df", 2), (strBytes "ghjk", 4),
   (strBytes "xxxx", 0), (strBytes "iiiittttq", 8), (strBytes "s", 0),
   (strBytes "uuuu", 800)]

/-- The buffer state after the seven writes on an empty 8-byte-block file. -/
def c1final : file :=
  match writeSeq (newFile 8) c1writes with
  | some f => f
  | none => newFile 8

/-- C1: starting from an empty file buffer with block size 8, the writes
("as",12), ("df",2), ("ghjk",4), ("xxxx",0), ("iiiittttq",8), ("s",0),
("uuuu",800) in order leave the buffer with size 21 and exactly 3 blocks
in the block map, and ReadAt of 21 bytes at offset 0 delivers exactly the
bytes "sxxxghjkiiiittttquuuu". -/
theorem c1_block_write_sequence :
    writeSeq (newFile 8) c1writes = some c1final ∧
    c1final.size = 21 ∧
    c1final.block.length = 3 ∧
    fileReadAt c1final 21 0 = .ok (21, strBytes "sxxxghjkiiiittttquuuu") := by
  decide

/-- First write of the C7 failing input: "ab" at offset 0 on an empty
8-byte-block file. -/
def c7write1 : Res (Nat × file) := fileWriteAt (newFile 8) (strBytes "ab") 0

/-- Buffer after the first C7 write. -/
def c7f1 : file :=
  match c7write1 with
  | .ok r => r.2
  | .err _ => newFile 8

/-- Second write of the C7 failing input: "xyz" at offset 2. -/
def c7write2 : Res (Nat × file) := fileWriteAt c7f1 (strBytes "xyz") 2

/-- Buffer after the second C7 write. -/
def c7f2 : file :=
  match c7write2 with
  | .ok r => r.2
  | .err _ => newFile 8

/-- C7: the write/read round trip fails on the code. After writing "ab" at
offset 0 and then "xyz" at offset 2 (both writes succeed and report full
counts), the size accounting of WriteAt records size 3 although the bytes
"abxyz" occupy offsets 0 to 4; a ReadAt of 3 bytes at offset 2 is then
clamped to size - offset = 1 and returns only "x" instead of "xyz". -/
theorem c7_size_bug :
    c7write1 = .ok (2, c7f1) ∧
    c7write2 = .ok (3, c7f2) ∧
    c7f2.size = 3 ∧
    fileReadAt c7f2 3 2 = .ok (1, strBytes "x") ∧
    strBytes "x" ≠ strBytes "xyz" := by
  decide

/-- C10: for every file buffer with a positive block size, ReadAt at
offset exactly equal to the current size returns 0 bytes with no error;
ReadAt at a negative offset fails with "negative offset" (the buffer is
untouched: ReadAt never writes the buffer in the code, and here returns
no buffer at all); and a non-negative offset yields end-of-stream exactly
when it is strictly greater than the size. -/
theorem c10_read_boundary (f : file) (plen : Nat) (hbs : 0 < f.blockSize) :
    fileReadAt f plen (f.size : Int) = .ok (0, []) ∧
    (∀ off : Int, off < 0 → fileReadAt f plen off = .err (.msg "negative offset")) ∧
    (∀ off : Int, 0 ≤ off → (fileReadAt f plen off = .err .eof ↔ f.size < off.toNat)) := by
  refine ⟨?_, ?_, ?_⟩
  · have hnn : ¬ ((f.size : Int) < 0) := by omega
    rcases Nat.eq_zero_or_pos plen with hp | hp
    · subst hp
      simp [fileReadAt, hnn, readLoop]
    · simp [fileReadAt, hnn, hp, readLoop]
  · intro off hoff
    simp [fileReadAt, hoff]
  · intro off hoff
    have hnn : ¬ (off < 0) := not_lt.mpr hoff
    by_cases heof : off.toNat > f.size
    · simp [fileReadAt, hnn, heof]
    · simp [fileReadAt, hnn, heof]

/-- Witness for C10 at the empty buffer with block size 8: reading at
offset 0 = size yields (0, no bytes), and reading at offset -3 fails. -/
theorem c10_read_boundary_witness :
    fileReadAt (newFile 8) 5 (((newFile 8).size : Nat) : Int) = .ok (0, []) ∧
    fileReadAt (newFile 8) 5 (-3) = .err (.msg "negative offset") :=
  ⟨(c10_read_boundary (newFile 8) 5 (by decide)).1,
   (c10_read_boundary (newFile 8) 5 (by decide)).2.1 (-3) (by decide)⟩

/-- plan9.DMDIR: mode bit for directories. -/
def DMDIR : Nat := 0x80000000

/-- plan9.DMAPPEND: mode bit for append-only files. -/
def DMAPPEND : Nat := 0x40000000

/-- plan9.DMEXCL: mode bit for exclusive-use files. -/
def DMEXCL : Nat := 0x20000000

/-- plan9.DMTMP: mode bit for temporary files. -/
def DMTMP : Nat := 0x04000000

/-- plan9.DMREAD: read permission bit. -/
def DMREAD : Nat := 4

/-- plan9.DMWRITE: write permission bit. -/
def DMWRITE : Nat := 2

/-- plan9.DMEXEC: execute permission bit. -/
def DMEXEC : Nat := 1

/-- plan9.QTDIR: qid type bit for directories. -/
def QTDIR : Nat := 0x80

/-- plan9.ORCLOSE: open mode bit for remove on close. -/
def ORCLOSE : Nat := 64

/-- Go AND NOT (x &^ y): clear in x every bit set in y. Subtracting
x &&& y from x clears exactly those bits, since x &&& y is a bitwise
submask of x. -/
def andn (x y : Nat) : Nat := x - (x &&& y)

/-- A user record of the group database (group.go): name, leader and the
member set, the set as a list of names. -/
structure user where
  name : String
  leader : String
  members : List String
deriving DecidableEq

/-- The group database map from user id to record (groupmap), as an
association list. -/
abbrev GroupMap := List (String × user)

/-- Go map lookup in the group database (group.Get without the lock). -/
def getUser : GroupMap → String → Option user
  | [], _ => none
  | (k, u) :: rest, uid => if k = uid then some u else getUser rest uid

/-- The plan9.Dir fields a node carries (node.go newNode): qid type,
version and path, mode, access and modification times, length, name,
owner, group and last modifier. -/
structure Dir where
  qtype : Nat
  vers : Nat
  path : Nat
  mode : Nat
  atime : Nat
  mtime : Nat
  length : Nat
  name : String
  uid : String
  gid : String
  muid : String
deriving DecidableEq

/-- node.HasPerm of node.go: whether uname holds all of the low three
bits of perm on this node. Starts from the other-bits; the anonymous
user none can succeed on other-bits alone; a user absent from the group
database is denied; the owner bits and, for a member of the node group,
the group bits are OR-ed in. The none case models the Go panic when the
node group id is missing from the group database. -/
def hasPerm (db : GroupMap) (d : Dir) (uname : String) (perm0 : Nat) : Option Bool :=
  let other := 7
  let perm := perm0 &&& other
  let fperm := d.mode &&& other
  if uname = "none" ∧ (fperm &&& perm) = perm then some true
  else
    match getUser db uname with
    | none => some false
    | some _ =>
      let fperm1 := if d.uid = uname then fperm ||| ((d.mode >>> 6) &&& other) else fperm
      if (fperm1 &&& perm) = perm then some true
      else
        match getUser db d.gid with
        | none => none
        | some fgroup =>
          let fperm2 :=
            if uname ∈ fgroup.members then fperm1 ||| ((d.mode >>> 3) &&& other) else fperm1
          some (decide ((fperm2 &&& perm) = perm))

/-- A node owned by the user none, mode 0700 (all owner bits, no other
bits), inside the bootstrap group database. -/
def c8dir : Dir :=
  { qtype := 0, vers := 0, path := 9, mode := 0o700, atime := 0, mtime := 0,
    length := 0, name := "f", uid := "none", gid := "none", muid := "none" }

/-- The group database containing only the bootstrap user none. -/
def c8db : GroupMap := [("none", { name := "none", leader := "none", members := [] })]

/-- C8 counterexample: HasPerm for the caller none does not depend only on
the other-bits. On a node owned by none with mode 0700 the owner bits are
OR-ed in for the caller none, so HasPerm("none", DMREAD) returns true
although the low three bits of the mode contain no bit of DMREAD. -/
theorem c8_counterexample :
    hasPerm c8db c8dir "none" DMREAD = some true ∧
    ¬ ((c8dir.mode &&& 7) &&& (DMREAD &&& 7) = DMREAD &&& 7) := by
  decide

/-- C8 amended: for every node whose owner is not the user none, and
whenever the group database cannot add bits for none (either none is not
in the database at all, or the node group exists in the database and does
not list none as a member, the latter also excluding the panic on a
missing group), HasPerm("none", p) returns true exactly when the low
three bits of the node mode include every bit of the low three bits of p. -/
theorem c8_hasperm_none_amended (db : GroupMap) (d : Dir) (p : Nat)
    (huid : d.uid ≠ "none")
    (hdb : getUser db "none" = none ∨
      ∃ g, getUser db d.gid = some g ∧ "none" ∉ g.members) :
    hasPerm db d "none" p = some (decide ((d.mode &&& 7) &&& (p &&& 7) = p &&& 7)) := by
  by_cases hincl : ((d.mode &&& 7) &&& (p &&& 7)) = p &&& 7
  · simp [hasPerm, hincl]
  · rcases hdb with hnone | ⟨g, hg, hmem⟩
    · simp [hasPerm, hincl, hnone]
    · cases hu : getUser db "none" with
      | none => simp [hasPerm, hincl, hu]
      | some u => simp [hasPerm, hincl, hu, hg, hmem, huid]

/-- Witness for C8 amended: on a node owned by adm with mode 0754 and the
bootstrap database, HasPerm("none", DMREAD) evaluates to the other-bits
test, which succeeds (other bits 4 contain DMREAD). -/
theorem c8_hasperm_none_amended_witness :
    hasPerm
      [("none", { name := "none", leader := "none", members := [] }),
       ("adm", { name := "adm", leader := "adm", members := [] })]
      { qtype := 0, vers := 0, path := 9, mode := 0o754, atime := 0, mtime := 0,
        length := 0, name := "f", uid := "adm", gid := "adm", muid := "adm" }
      "none" DMREAD = some true :=
  c8_hasperm_none_amended _ _ _ (by decide)
    (Or.inr ⟨{ name := "adm", leader := "adm", members := [] }, by decide, by decide⟩)

/-- The fields of a Wstat request that node.Wstat reads: mode (sentinel
0xFFFFFFFF means leave unchanged), name and gid (sentinel empty string). -/
structure WstatReq where
  mode : Nat
  name : String
  gid : String
deriving DecidableEq

/-- The group precondition of node.Wstat (node.go lines 547 to 556): when
the request changes the gid, the code looks up the node CURRENT group in
the group database (a missing record is the Go panic, modelled as none)
and requires uname to be a member of that current group; otherwise the
request fails with not owner. -/
def wstatGidCheck (db : GroupMap) (n : Dir) (uname : String) (req : WstatReq) :
    Option (Option String) :=
  if req.gid ≠ "" ∧ req.gid ≠ n.gid then
    match getUser db n.gid with
    | none => none
    | some fgroup =>
      if uname ∈ fgroup.members then some none else some (some "not owner")
  else some none

/-- The precondition phase of node.Wstat, in source order: the mode check
(owner or group leader, the leader of a group being the group itself),
then the name check (write permission in the parent, name not already
present), then the group check. some none means all checks passed; some
(some e) is the error returned; none is a Go panic inside a permission
lookup. The parent directory is pd and its child names pc. -/
def wstatChecks (db : GroupMap) (pd : Dir) (pc : List String) (n : Dir)
    (uname : String) (req : WstatReq) : Option (Option String) :=
  if (req.mode ≠ 0xFFFFFFFF ∧ req.mode ≠ n.mode) ∧ (uname ≠ n.uid ∧ uname ≠ n.gid) then
    some (some "not owner")
  else if req.name ≠ "" ∧ req.name ≠ n.name then
    match hasPerm db pd uname DMWRITE with
    | none => none
    | some false => some (some "permission denied")
    | some true =>
      if req.name ∈ pc then some (some "file exists")
      else wstatGidCheck db n uname req
  else wstatGidCheck db n uname req

/-- The commit phase of node.Wstat (node.go lines 558 to 581), run only
after every check passed: the mode keeps the node low 0777 bits when the
request has the directory bit and the low 0666 bits otherwise; a name
change re-keys the parent child map; the gid is set. Returns the new node
metadata and the new parent child names. -/
def wstatCommit (pc : List String) (n : Dir) (req : WstatReq) : Dir × List String :=
  let n1 :=
    if req.mode ≠ 0xFFFFFFFF ∧ req.mode ≠ n.mode then
      (if req.mode &&& DMDIR ≠ 0 then
        { n with mode := andn req.mode 0o777 ||| (n.mode &&& 0o777) }
      else
        { n with mode := andn req.mode 0o666 ||| (n.mode &&& 0o666) })
    else n
  let step2 :=
    if req.name ≠ "" ∧ req.name ≠ n.name then
      ({ n1 with name := req.name }, pc.erase n.name ++ [req.name])
    else (n1, pc)
  let n3 :=
    if req.gid ≠ "" ∧ req.gid ≠ n.gid then { step2.1 with gid := req.gid } else step2.1
  (n3, step2.2)

/-- node.Wstat of node.go: run the checks; on failure return the error
with the node and parent untouched; on success commit every requested
change. The result is (error option, node metadata, parent child names);
none models a Go panic inside the checks. -/
def nodeWstat (db : GroupMap) (pd : Dir) (pc : List String) (n : Dir)
    (uname : String) (req : WstatReq) : Option (Option String × Dir × List String) :=
  match wstatChecks db pd pc n uname req with
  | none => none
  | some (some e) => some (some e, n, pc)
  | some none =>
    let r := wstatCommit pc n req
    some (none, r.1, r.2)

/-- Owner alice, group g; bob is a member of g but not the owner. -/
def c2dir : Dir :=
  { qtype := 0, vers := 0, path := 9, mode := 0o644, atime := 0, mtime := 0,
    length := 0, name := "f", uid := "alice", gid := "g", muid := "alice" }

/-- Group database for the C2 counterexample: alice and bob exist, group g
has member bob, group h has member alice. -/
def c2db : GroupMap :=
  [("alice", { name := "alice", leader := "alice", members := [] }),
   ("bob", { name := "bob", leader := "bob", members := [] }),
   ("g", { name := "g", leader := "g", members := ["bob"] }),
   ("h", { name := "h", leader := "h", members := ["alice"] })]

/-- A parent directory for the Wstat scenarios. -/
def c2parent : Dir :=
  { qtype := 0x80, vers := 0, path := 0, mode := 0o777 + DMDIR, atime := 0, mtime := 0,
    length := 0, name := "/", uid := "adm", gid := "adm", muid := "adm" }

/-- A gid-only Wstat request moving the node into group h. -/
def c2req : WstatReq := { mode := 0xFFFFFFFF, name := "", gid := "h" }

/-- C2 counterexample, both directions of the claim refuted on concrete
inputs. First: bob is not the owner of the node (and not a member of the
requested group h), yet Wstat succeeds and changes the gid to h, because
the code only tests membership of the CURRENT group g. Second: alice is
the owner and a member of the new group h, yet Wstat fails with not owner
and leaves the gid unchanged, because alice is not a member of g. -/
theorem c2_counterexample :
    (nodeWstat c2db c2parent ["f"] c2dir "bob" c2req =
      some (none, { c2dir with gid := "h" }, ["f"]) ∧ "bob" ≠ c2dir.uid) ∧
    (nodeWstat c2db c2parent ["f"] c2dir "alice" c2req =
      some (some "not owner", c2dir, ["f"]) ∧ "alice" = c2dir.uid ∧
      "alice" ∈ ({ name := "h", leader := "h", members := ["alice"] } : user).members) := by
  decide

/-- C2 amended: for a Wstat request that changes only the gid (mode and
name at their sentinels, gid non-empty and different from the current
gid), on a node whose current gid exists in the group database, Wstat
changes the group exactly when uname is a member of the node CURRENT
group: in that case it succeeds and sets the gid to the requested value,
leaving everything else unchanged; otherwise it fails with not owner and
the node and parent are unchanged. -/
theorem c2_wstat_gid_amended (db : GroupMap) (pd : Dir) (pc : List String) (n : Dir)
    (uname : String) (req : WstatReq) (fgroup : user)
    (hmode : req.mode = 0xFFFFFFFF) (hname : req.name = "")
    (hgid : req.gid ≠ "" ∧ req.gid ≠ n.gid)
    (hdb : getUser db n.gid = some fgroup) :
    nodeWstat db pd pc n uname req =
      (if uname ∈ fgroup.members then some (none, { n with gid := req.gid }, pc)
       else some (some "not owner", n, pc)) := by
  by_cases hmem : uname ∈ fgroup.members
  · simp only [nodeWstat, wstatChecks, wstatGidCheck, wstatCommit, hmode, hname, hgid, hdb,
      hmem, if_pos, if_neg, if_true]
    simp [hgid, hmode]
  · simp only [nodeWstat, wstatChecks, wstatGidCheck, wstatCommit, hmode, hname, hgid, hdb]
    simp [hmem, hgid]

/-- Witness for C2 amended: in the counterexample database, bob (a member
of the current group g) moves the node into group h. -/
theorem c2_wstat_gid_amended_witness :
    nodeWstat c2db c2parent ["f"] c2dir "bob" c2req =
      some (none, { c2dir with gid := "h" }, ["f"]) := by
  have h := c2_wstat_gid_amended c2db c2parent ["f"] c2dir "bob" c2req
    { name := "g", leader := "g", members := ["bob"] }
    (by decide) (by decide) (by decide) (by decide)
  simpa using h

/-- A mode-only Wstat request asking for mode 0444. -/
def c6req : WstatReq := { mode := 0o444, name := "", gid := "" }

/-- C6 counterexample: a successful Wstat does not apply every requested
change. The owner alice asks to change the mode of her 0664 file to 0444;
the call succeeds, but the commit keeps the node low 0666 bits, so the
mode stays 0664 and the requested value 0444 was not applied. -/
theorem c6_counterexample :
    nodeWstat c2db c2parent ["f"]
      { c2dir with mode := 0o664 } "alice" c6req =
      some (none, { c2dir with mode := 0o664 }, ["f"]) ∧
    (0o664 : Nat) ≠ c6req.mode := by
  decide

/-- C6 amended: node.Wstat is atomic in the following exact sense. If the
call returns an error, the node metadata and the parent child map are
exactly as before. If it succeeds, the requested name and gid (when not
at their sentinel values) are applied verbatim, the parent child map is
re-keyed accordingly, and a requested mode is applied with the code
masking: the request low 0777 bits are replaced by the node previous low
0777 bits when the request has the directory bit, and the low 0666 bits
are so replaced otherwise; fields not requested keep their values, and
the version and owner are never altered. -/
theorem c6_wstat_atomic_amended (db : GroupMap) (pd : Dir) (pc : List String) (n : Dir)
    (uname : String) (req : WstatReq) (r : Option String × Dir × List String)
    (hr : nodeWstat db pd pc n uname req = some r) :
    (r.1 ≠ none → r.2.1 = n ∧ r.2.2 = pc) ∧
    (r.1 = none →
      r.2.1.mode = (if req.mode ≠ 0xFFFFFFFF ∧ req.mode ≠ n.mode then
          (if req.mode &&& DMDIR ≠ 0 then andn req.mode 0o777 ||| (n.mode &&& 0o777)
           else andn req.mode 0o666 ||| (n.mode &&& 0o666))
        else n.mode) ∧
      r.2.1.name = (if req.name ≠ "" ∧ req.name ≠ n.name then req.name else n.name) ∧
      r.2.1.gid = (if req.gid ≠ "" ∧ req.gid ≠ n.gid then req.gid else n.gid) ∧
      r.2.2 = (if req.name ≠ "" ∧ req.name ≠ n.name then pc.erase n.name ++ [req.name]
        else pc) ∧
      r.2.1.vers = n.vers ∧ r.2.1.uid = n.uid) := by
  rw [nodeWstat] at hr
  cases hck : wstatChecks db pd pc n uname req with
  | none => rw [hck] at hr; cases hr
  | some o =>
    cases o with
    | none =>
      rw [hck] at hr
      injection hr with hr
      subst hr
      refine ⟨by simp, fun _ => ?_⟩
      simp only [wstatCommit]
      by_cases hm : req.mode ≠ 0xFFFFFFFF ∧ req.mode ≠ n.mode <;>
        by_cases hn : req.name ≠ "" ∧ req.name ≠ n.name <;>
          by_cases hg : req.gid ≠ "" ∧ req.gid ≠ n.gid <;>
            by_cases hd : req.mode &&& DMDIR ≠ 0 <;>
              simp [hm, hn, hg, hd]
    | some e =>
      rw [hck] at hr
      injection hr with hr
      subst hr
      exact ⟨fun _ => ⟨rfl, rfl⟩, by simp⟩

/-- Witness for C6 amended: applied at the counterexample input, the
success branch yields the masked mode, unchanged name and gid, unchanged
parent child map, and unchanged version and owner. -/
theorem c6_wstat_atomic_amended_witness :
    ({ c2dir with mode := 0o664 } : Dir).mode = 0o664 ∧
    (some (none, { c2dir with mode := 0o664 }, ["f"]) :
        Option (Option String × Dir × List String)).isSome = true ∧
    ((none : Option String), ({ c2dir with mode := 0o664 } : Dir),
      (["f"] : List String)).2.1.mode =
      (if c6req.mode ≠ 0xFFFFFFFF ∧ c6req.mode ≠ ({ c2dir with mode := 0o664 } : Dir).mode then
        (if c6req.mode &&& DMDIR ≠ 0 then
          andn c6req.mode 0o777 ||| (({ c2dir with mode := 0o664 } : Dir).mode &&& 0o777)
         else andn c6req.mode 0o666 ||| (({ c2dir with mode := 0o664 } : Dir).mode &&& 0o666))
       else ({ c2dir with mode := 0o664 } : Dir).mode) :=
  ⟨rfl, rfl,
    ((c6_wstat_atomic_amended c2db c2parent ["f"] { c2dir with mode := 0o664 } "alice" c6req
      (none, { c2dir with mode := 0o664 }, ["f"]) (by decide)).2 rfl).1⟩

/-- The error latch of a connection (conn.go): the latched error, an
error being a string, nil being none. -/
structure conn where
  err : Option String
deriving DecidableEq

/-- conn.setErr of conn.go, exactly as written: the latch is assigned
only when the incoming error is nil, so a real error is never stored. -/
def setErr (c : conn) (e : Option String) : conn :=
  if e = none then { c with err := e } else c

/-- conn.getErr of conn.go: read the latched error. -/
def getErr (c : conn) : Option String := c.err

/-- C3: the first-error latch does not store the first non-nil error. On
a connection whose latched error is nil, setErr with the non-nil stream
error read error leaves the latch nil, so the following getErr returns
nil instead of the error. The guard in the code stores the error only
when it is nil, the inverse of the documented intent. -/
theorem c3_err_latch_bug :
    getErr (setErr { err := none } (some "read error")) = none ∧
    getErr (setErr { err := none } (some "read error")) ≠ some "read error" := by
  decide

/-- A node of the walk tree, held in an arena indexed by Nat: the parent
index, the child map as an association list from name to index, and the
qid type and mode of the node metadata that walk consults via Stat. -/
structure wnode where
  parent : Nat
  children : List (String × Nat)
  qtype : Nat
  mode : Nat

/-- The node arena: parent pointers are arena indices, which models the
cyclic parent references of the Go node tree. -/
abbrev Arena := Nat → wnode

/-- Go map lookup in a child map. -/
def lookupChild : List (String × Nat) → String → Option Nat
  | [], _ => none
  | (k, v) :: rest, name => if k = name then some v else lookupChild rest name

/-- One name step of walk (node.go): dot-dot moves to the parent, any
other name requires a matching child. -/
def stepResolve (a : Arena) (cur : Nat) (name : String) : Option Nat :=
  if name = ".." then some (a cur).parent else lookupChild (a cur).children name

/-- walk of node.go: advance step by step; a missing child fails with
file does not exist; a step landing on a node whose qid type has the
QTDIR bit and whose mode has the DMEXEC bit fails with permission
denied; otherwise the callback runs on the node and the remaining path
and the walk continues from the node. -/
def walk (a : Arena) (cur : Nat) (path : List String)
    (fn : Nat → List String → Option String) : Option String :=
  match path with
  | [] => none
  | name :: rest =>
    match stepResolve a cur name with
    | none => some "file does not exist"
    | some t =>
      if (a t).qtype &&& QTDIR ≠ 0 ∧ (a t).mode &&& DMEXEC ≠ 0 then
        some "permission denied"
      else
        match fn t rest with
        | some e => some e
        | none => walk a t rest fn

/-- C4: a walk step that lands on a directory node (QTDIR set in the qid
type) whose mode has the DMEXEC bit fails with permission denied, and a
step landing on a directory without that bit is not denied by this
check: the walk proceeds to the callback and the remaining path. -/
theorem c4_walk_exec_denied (a : Arena) (cur : Nat) (name : String)
    (rest : List String) (fn : Nat → List String → Option String) (t : Nat)
    (hstep : stepResolve a cur name = some t)
    (hdir : (a t).qtype &&& QTDIR ≠ 0) :
    ((a t).mode &&& DMEXEC ≠ 0 →
      walk a cur (name :: rest) fn = some "permission denied") ∧
    ((a t).mode &&& DMEXEC = 0 →
      walk a cur (name :: rest) fn =
        (match fn t rest with
         | some e => some e
         | none => walk a t rest fn)) := by
  constructor
  · intro hx
    rw [walk, hstep]
    simp [hdir, hx]
  · intro hx
    rw [walk, hstep]
    simp [hx]

/-- The two-node arena of the C4 witness: node 0 is the root holding one
child named d at index 1; node 1 is a directory, first with mode 0755
(execute bit set), then with mode 0750 (execute bit clear). -/
def c4arena (dmode : Nat) : Arena := fun i =>
  if i = 1 then { parent := 0, children := [], qtype := QTDIR, mode := dmode }
  else { parent := 0, children := [("d", 1)], qtype := QTDIR, mode := 0o770 + DMDIR }

/-- Witness for C4: stepping onto the directory d is denied when its mode
is 0755 or DMDIR (execute bit set) and proceeds when its mode is
0750 or DMDIR (execute bit clear, trivial callback). -/
theorem c4_walk_exec_denied_witness :
    walk (c4arena (0o755 + DMDIR)) 0 ["d"] (fun _ _ => none) =
      some "permission denied" ∧
    walk (c4arena (0o750 + DMDIR)) 0 ["d"] (fun _ _ => none) = none :=
  ⟨(c4_walk_exec_denied (c4arena (0o755 + DMDIR)) 0 "d" [] (fun _ _ => none) 1
      rfl (by decide)).1 (by decide),
   by
    have h := (c4_walk_exec_denied (c4arena (0o750 + DMDIR)) 0 "d" [] (fun _ _ => none) 1
      rfl (by decide)).2 (by decide)
    rw [h]
    rfl⟩

/-- The mutable state of a node that its own operations touch: the
metadata record, the file buffer of a regular node, the in-use flag for
exclusive use, and the remove-on-close flag. -/
structure nodeSt where
  dir : Dir
  data : file
  inUse : Bool
  orclose : Bool
deriving DecidableEq

/-- node.WriteAt of node.go: directories cannot be written; on an
append-only node the offset is replaced by the current length (with the
int64 overflow guard of the code); on a successful buffer write the
access and modification times and the length are updated and, unless the
node is temporary, the 32-bit qid version is incremented (wrapping at
2^32 as a Go uint32 does). -/
def nodeWriteAt (n : nodeSt) (p : List Byte) (offset : Int) (now : Nat) :
    Res (Nat × nodeSt) :=
  if n.dir.mode &&& DMDIR ≠ 0 then .err (.msg "is a directory")
  else if n.dir.mode &&& DMAPPEND ≠ 0 ∧ n.data.size > 2 ^ 63 - 1 then
    .err (.msg "offset overflow")
  else
    let off := if n.dir.mode &&& DMAPPEND ≠ 0 then (n.data.size : Int) else offset
    match fileWriteAt n.data p off with
    | .err e => .err e
    | .ok r =>
      .ok (r.1,
        { n with
          data := r.2,
          dir := { n.dir with
            atime := now, mtime := now, length := r.2.size,
            vers := if n.dir.mode &&& DMTMP = 0 then (n.dir.vers + 1) % 2 ^ 32
              else n.dir.vers } })

/-- node.ReadAt of node.go: directories cannot be read through it; a
successful buffer read updates the access time. -/
def nodeReadAt (n : nodeSt) (plen : Nat) (offset : Int) (now : Nat) :
    Res (Nat × nodeSt) :=
  if n.dir.mode &&& DMDIR ≠ 0 then .err (.msg "is a directory")
  else
    match fileReadAt n.data plen offset with
    | .err e => .err e
    | .ok r => .ok (r.1, { n with dir := { n.dir with atime := now } })

/-- node.Open of node.go: an exclusive node already in use is refused;
an exclusive node becomes in use; the ORCLOSE open mode records the
remove-on-close flag. -/
def nodeOpen (n : nodeSt) (mode : Nat) : Res nodeSt :=
  if n.dir.mode &&& DMEXCL ≠ 0 ∧ n.inUse then
    .err (.msg "exclusive use file already open")
  else
    let n1 := if n.dir.mode &&& DMEXCL ≠ 0 ∧ ¬ n.inUse then { n with inUse := true } else n
    if mode &&& ORCLOSE ≠ 0 then .ok { n1 with orclose := true } else .ok n1

/-- node.Close of node.go, restricted to the state of the node itself:
the in-use flag of an exclusive node is cleared; closing the buffer is a
no-op; the remove path only alters the parent. -/
def nodeClose (n : nodeSt) : nodeSt :=
  if n.dir.mode &&& DMEXCL ≠ 0 ∧ n.inUse then { n with inUse := false } else n

/-- One operation on a node: the operations of node.go that touch the
node state, with the context a Wstat call needs (database, parent
metadata and child names, caller). -/
inductive NodeOp where
  | write (p : List Byte) (offset : Int) (now : Nat)
  | read (plen : Nat) (offset : Int) (now : Nat)
  | openOp (mode : Nat)
  | closeOp
  | wstat (db : GroupMap) (pd : Dir) (pc : List String) (uname : String) (req : WstatReq)

/-- Apply one operation to a node state; a failing operation (and the
panic case of Wstat) leaves the state as the code does: untouched. -/
def applyOp (n : nodeSt) : NodeOp → nodeSt
  | .write p offset now =>
    match nodeWriteAt n p offset now with
    | .ok r => r.2
    | .err _ => n
  | .read plen offset now =>
    match nodeReadAt n plen offset now with
    | .ok r => r.2
    | .err _ => n
  | .openOp mode =>
    match nodeOpen n mode with
    | .ok n1 => n1
    | .err _ => n
  | .closeOp => nodeClose n
  | .wstat db pd pc uname req =>
    match nodeWstat db pd pc n.dir uname req with
    | some (none, d1, _) => { n with dir := d1 }
    | _ => n

/-- Apply a sequence of operations in order. -/
def applyOps (n : nodeSt) : List NodeOp → nodeSt
  | [] => n
  | op :: rest => applyOps (applyOp n op) rest

/-- Metadata of a regular, non-temporary node whose version sits at the
uint32 maximum. -/
def c5dir : Dir :=
  { qtype := 0, vers := 2 ^ 32 - 1, path := 9, mode := 0o644, atime := 0, mtime := 0,
    length := 0, name := "f", uid := "alice", gid := "g", muid := "alice" }

/-- A regular, non-temporary node state at version 2^32 - 1. -/
def c5node : nodeSt :=
  { dir := c5dir, data := newFile 8, inUse := false, orclose := false }

/-- The node after the C5 counterexample write. -/
def c5after : nodeSt :=
  match nodeWriteAt c5node (strBytes "a") 0 7 with
  | .ok r => r.2
  | .err _ => c5node

/-- C5 counterexample: the version is a Go uint32 and wraps. On a regular
non-temporary node whose version is 2^32 - 1, a successful WriteAt sets
the version to 0: the new version is not the old version plus one, and it
is smaller than the old version, so across a long enough operation
sequence the version does decrease. -/
theorem c5_counterexample :
    nodeWriteAt c5node (strBytes "a") 0 7 = .ok (1, c5after) ∧
    c5after.dir.vers = 0 ∧
    c5after.dir.vers < c5node.dir.vers ∧
    c5after.dir.vers ≠ c5node.dir.vers + 1 := by
  decide

/-- The commit phase of Wstat never touches the version. -/
theorem wstatCommit_vers (pc : List String) (n : Dir) (req : WstatReq) :
    (wstatCommit pc n req).1.vers = n.vers := by
  simp only [wstatCommit]
  repeat' split
  all_goals rfl

/-- A successful node.Wstat keeps the version. -/
theorem nodeWstat_ok_vers (db : GroupMap) (pd : Dir) (pc : List String) (n : Dir)
    (uname : String) (req : WstatReq) (d1 : Dir) (c1 : List String)
    (h : nodeWstat db pd pc n uname req = some (none, d1, c1)) : d1.vers = n.vers := by
  simp only [nodeWstat] at h
  cases hck : wstatChecks db pd pc n uname req with
  | none => simp only [hck] at h; cases h
  | some o =>
    cases o with
    | some e => simp only [hck] at h; simp at h
    | none =>
      simp only [hck, Option.some.injEq, Prod.mk.injEq] at h
      rw [← h.2.1]
      exact wstatCommit_vers pc n req

/-- A successful node.WriteAt sets the version to the old version plus
one modulo 2^32 on a non-temporary node and keeps it on a temporary one. -/
theorem nodeWriteAt_vers (n : nodeSt) (p : List Byte) (offset : Int) (now m : Nat)
    (n1 : nodeSt) (hok : nodeWriteAt n p offset now = .ok (m, n1)) :
    n1.dir.vers =
      (if n.dir.mode &&& DMTMP = 0 then (n.dir.vers + 1) % 2 ^ 32 else n.dir.vers) := by
  simp only [nodeWriteAt] at hok
  by_cases htmp : n.dir.mode &&& DMTMP = 0
  · rw [if_pos htmp] at hok ⊢
    repeat' split at hok
    all_goals
      first
        | exact Res.noConfusion hok
        | (simp only [Res.ok.injEq, Prod.mk.injEq] at hok
           obtain ⟨hm, hn⟩ := hok
           subst hn
           rfl)
  · rw [if_neg htmp] at hok ⊢
    repeat' split at hok
    all_goals
      first
        | exact Res.noConfusion hok
        | (simp only [Res.ok.injEq, Prod.mk.injEq] at hok
           obtain ⟨hm, hn⟩ := hok
           subst hn
           rfl)

/-- A successful node.ReadAt keeps the version. -/
theorem nodeReadAt_vers (n : nodeSt) (plen : Nat) (offset : Int) (now m : Nat)
    (n1 : nodeSt) (hok : nodeReadAt n plen offset now = .ok (m, n1)) :
    n1.dir.vers = n.dir.vers := by
  simp only [nodeReadAt] at hok
  repeat' split at hok
  all_goals
    first
      | exact Res.noConfusion hok
      | (simp only [Res.ok.injEq, Prod.mk.injEq] at hok
         obtain ⟨hm, hn⟩ := hok
         subst hn
         rfl)

/-- A successful node.Open keeps the metadata entirely. -/
theorem nodeOpen_dir (n : nodeSt) (mode : Nat) (n1 : nodeSt)
    (hok : nodeOpen n mode = .ok n1) : n1.dir = n.dir := by
  simp only [nodeOpen] at hok
  repeat' split at hok
  all_goals
    first
      | exact Res.noConfusion hok
      | (simp only [Res.ok.injEq] at hok
         subst hok
         rfl)

/-- node.Close keeps the metadata entirely. -/
theorem nodeClose_dir (n : nodeSt) : (nodeClose n).dir = n.dir := by
  simp only [nodeClose]
  split <;> rfl

/-- The version after one operation grows by at most one and, short of
the uint32 wrap, never shrinks. -/
theorem applyOp_vers (n : nodeSt) (op : NodeOp) :
    (applyOp n op).dir.vers ≤ n.dir.vers + 1 ∧
    (n.dir.vers + 1 < 2 ^ 32 → n.dir.vers ≤ (applyOp n op).dir.vers) := by
  have hmain : (applyOp n op).dir.vers = n.dir.vers ∨
      (applyOp n op).dir.vers = (n.dir.vers + 1) % 2 ^ 32 := by
    cases op with
    | write p offset now =>
      simp only [applyOp]
      cases hw : nodeWriteAt n p offset now with
      | err e => exact Or.inl rfl
      | ok r =>
        have hv := nodeWriteAt_vers n p offset now r.1 r.2 (by rw [hw])
        by_cases htmp : n.dir.mode &&& DMTMP = 0
        · rw [if_pos htmp] at hv
          exact Or.inr hv
        · rw [if_neg htmp] at hv
          exact Or.inl hv
    | read plen offset now =>
      simp only [applyOp]
      cases hw : nodeReadAt n plen offset now with
      | err e => exact Or.inl rfl
      | ok r => exact Or.inl (nodeReadAt_vers n plen offset now r.1 r.2 (by rw [hw]))
    | openOp mode =>
      simp only [applyOp]
      cases hw : nodeOpen n mode with
      | err e => exact Or.inl rfl
      | ok n1 => exact Or.inl (congrArg Dir.vers (nodeOpen_dir n mode n1 hw))
    | closeOp =>
      simp only [applyOp]
      exact Or.inl (congrArg Dir.vers (nodeClose_dir n))
    | wstat db pd pc uname req =>
      simp only [applyOp]
      rcases hw : nodeWstat db pd pc n.dir uname req with _ | ⟨o, d1, c1⟩
      · exact Or.inl rfl
      · cases o with
        | none => exact Or.inl (nodeWstat_ok_vers db pd pc n.dir uname req d1 c1 hw)
        | some e => exact Or.inl rfl
  rcases hmain with h | h
  · rw [h]
    exact ⟨Nat.le_succ _, fun _ => le_refl _⟩
  · rw [h]
    constructor
    · exact Nat.mod_le _ _
    · intro hlt
      rw [Nat.mod_eq_of_lt hlt]
      exact Nat.le_succ _

/-- The version after a sequence of operations grows by at most the
length of the sequence and, while the initial version plus the length
stays below 2^32, never shrinks. -/
theorem applyOps_vers (ops : List NodeOp) (n : nodeSt) :
    (applyOps n ops).dir.vers ≤ n.dir.vers + ops.length ∧
    (n.dir.vers + ops.length < 2 ^ 32 → n.dir.vers ≤ (applyOps n ops).dir.vers) := by
  induction ops generalizing n with
  | nil => exact ⟨Nat.le_add_right _ _, fun _ => le_refl _⟩
  | cons op rest ih =>
    have hstep := applyOp_vers n op
    have htail := ih (applyOp n op)
    rw [applyOps]
    constructor
    · calc (applyOps (applyOp n op) rest).dir.vers
          ≤ (applyOp n op).dir.vers + rest.length := htail.1
        _ ≤ (n.dir.vers + 1) + rest.length := Nat.add_le_add_right hstep.1 _
        _ = n.dir.vers + (op :: rest).length := by
          simp only [List.length_cons]
          omega
    · intro hlt
      have h1 : n.dir.vers + 1 < 2 ^ 32 := by
        simp only [List.length_cons] at hlt
        omega
      have h2 : (applyOp n op).dir.vers + rest.length < 2 ^ 32 := by
        have := hstep.1
        simp only [List.length_cons] at hlt
        omega
      exact le_trans (hstep.2 h1) (htail.2 h2)

/-- C5 amended: on a regular non-temporary node, each successful WriteAt
sets the version to the old version plus one reduced modulo 2^32 (the
field is a Go uint32); consequently the version never decreases across
any sequence of operations as long as the initial version plus the
number of operations stays below 2^32 (absent the wrap forced by the
counterexample). -/
theorem c5_version_amended :
    (∀ (n : nodeSt) (p : List Byte) (offset : Int) (now m : Nat) (n1 : nodeSt),
      n.dir.mode &&& DMTMP = 0 →
      nodeWriteAt n p offset now = .ok (m, n1) →
      n1.dir.vers = (n.dir.vers + 1) % 2 ^ 32) ∧
    (∀ (ops : List NodeOp) (n : nodeSt),
      n.dir.vers + ops.length < 2 ^ 32 →
      n.dir.vers ≤ (applyOps n ops).dir.vers) := by
  constructor
  · intro n p offset now m n1 htmp hok
    have hv := nodeWriteAt_vers n p offset now m n1 hok
    rw [if_pos htmp] at hv
    exact hv
  · intro ops n hlt
    exact (applyOps_vers ops n).2 hlt

/-- A node like c5node but at version 5. -/
def w5node : nodeSt :=
  { dir := { c5dir with vers := 5 }, data := newFile 8, inUse := false, orclose := false }

/-- The node after one write on w5node. -/
def w5after : nodeSt := applyOp w5node (NodeOp.write (strBytes "a") 0 7)

/-- Witness for C5 amended: a node at version 5 reaches version 6 by one
successful write, and one write never lowers a version of 5. -/
theorem c5_version_amended_witness :
    nodeWriteAt w5node (strBytes "a") 0 7 = .ok (1, w5after) ∧
    w5after.dir.vers = (5 + 1) % 2 ^ 32 ∧
    5 ≤ (applyOps w5node [NodeOp.write (strBytes "a") 0 7]).dir.vers := by
  refine ⟨by decide, ?_, ?_⟩
  · have h := c5_version_amended.1 w5node (strBytes "a") 0 7 1 w5after
      (by decide) (by decide)
    simpa [w5node, c5dir] using h
  · exact c5_version_amended.2 [NodeOp.write (strBytes "a") 0 7] w5node (by decide)

/-- The process-wide path allocator of fs.go: the set of freed ids (Go
map iteration abstracted as list order) and the monotonic counter. -/
structure pathAlloc where
  free : List Nat
  next : Nat
deriving DecidableEq

/-- The largest path id (maxPath of fs.go, 2^64 - 1). -/
def maxPath : Nat := 2 ^ 64 - 1

/-- FS.newPath of fs.go: a freed id is recycled first; otherwise the
counter is returned and incremented, unless it reached maxPath. -/
def newPath (a : pathAlloc) : Res (Nat × pathAlloc) :=
  match a.free with
  | p :: rest => .ok (p, { free := rest, next := a.next })
  | [] =>
    if a.next = maxPath then .err (.msg "out of paths")
    else .ok (a.next, { free := [], next := a.next + 1 })

/-- The fields of a child node that node.Create and node.Open consult on
the existing-entry path: its mode and the in-use flag. -/
structure childNode where
  mode : Nat
  inUse : Bool
  orclose : Bool
deriving DecidableEq

/-- Go map lookup in a child map of a directory node. -/
def getChild : List (String × childNode) → String → Option childNode
  | [], _ => none
  | (k, c) :: rest, name => if k = name then some c else getChild rest name

/-- node.Open of node.go applied to a child found by Create: refuse an
exclusive child already in use, else mark it in use and record ORCLOSE. -/
def childOpen (c : childNode) (mode : Nat) : Res childNode :=
  if c.mode &&& DMEXCL ≠ 0 ∧ c.inUse then
    .err (.msg "exclusive use file already open")
  else
    let c1 := if c.mode &&& DMEXCL ≠ 0 ∧ ¬ c.inUse then { c with inUse := true } else c
    if mode &&& ORCLOSE ≠ 0 then .ok { c1 with orclose := true } else .ok c1

/-- A directory node as node.Create sees it: its metadata, in-use flag
and child map. -/
structure dirNode where
  dir : Dir
  inUse : Bool
  children : List (String × childNode)
deriving DecidableEq

/-- node.Create of node.go: reserved names are illegal; the permission
word inherits the parent low bits (0777 under the directory bit, 0666
otherwise); the receiver must be a directory; an exclusive directory
already in use is refused; a path id is allocated; an existing entry is
opened with mode instead of creating; otherwise the new child (with the
inherited permissions and the parent group) enters the child map. The
result is the new child map, the allocator and the created or opened
child. -/
def nodeCreate (a : pathAlloc) (parent : dirNode) (uid name : String)
    (mode : Nat) (perm : Nat) : Res (List (String × childNode) × pathAlloc × childNode) :=
  if name = "." ∨ name = ".." then .err (.msg "illegal name")
  else
    let perm1 :=
      if perm &&& DMDIR ≠ 0 then andn perm 0o777 ||| (parent.dir.mode &&& 0o777)
      else andn perm 0o666 ||| (parent.dir.mode &&& 0o666)
    if parent.dir.mode &&& DMDIR = 0 then .err (.msg "not a directory")
    else if parent.dir.mode &&& DMEXCL ≠ 0 ∧ parent.inUse then
      .err (.msg "exclusive use file already open")
    else
      match newPath a with
      | .err e => .err e
      | .ok pa =>
        match getChild parent.children name with
        | some c =>
          (match childOpen c mode with
           | .err e => .err e
           | .ok c1 => .ok (parent.children, pa.2, c1))
        | none =>
          let child : childNode := { mode := perm1, inUse := false, orclose := false }
          .ok (parent.children ++ [(name, child)], pa.2, child)

/-- Fid.Create of fid.go: the permission check against the directory the
fid references is HasPerm of the REQUESTED perm (whose low three bits
alone matter), not of write permission; only then does node.Create run.
The none case is the Go panic inside HasPerm. -/
def fidCreate (db : GroupMap) (a : pathAlloc) (parent : dirNode) (uid name : String)
    (mode : Nat) (perm : Nat) :
    Option (Res (List (String × childNode) × pathAlloc × childNode)) :=
  match hasPerm db parent.dir uid perm with
  | none => none
  | some false => some (.err (.msg "permission denied"))
  | some true => some (nodeCreate a parent uid name mode perm)

/-- HasPerm only reads the low three bits of the wanted permission. -/
theorem hasPerm_mask (db : GroupMap) (d : Dir) (uname : String) (p : Nat) :
    hasPerm db d uname (p &&& 7) = hasPerm db d uname p := by
  have h7 : (7 : Nat) &&& 7 = 7 := rfl
  have h : (p &&& 7) &&& 7 = p &&& 7 := by
    rw [Nat.land_assoc, h7]
  rw [hasPerm, hasPerm, h]

/-- FS.newPath never fails with permission denied. -/
theorem newPath_ne_perm (a : pathAlloc) :
    newPath a ≠ .err (.msg "permission denied") := by
  simp only [newPath]
  intro h
  repeat' split at h
  all_goals simp_all

/-- node.Open on an existing child never fails with permission denied. -/
theorem childOpen_ne_perm (c : childNode) (mode : Nat) :
    childOpen c mode ≠ .err (.msg "permission denied") := by
  simp only [childOpen]
  intro h
  repeat' split at h
  all_goals simp_all

/-- node.Create never fails with permission denied: its error strings are
illegal name, not a directory, exclusive use file already open and out of
paths. -/
theorem nodeCreate_ne_perm (a : pathAlloc) (parent : dirNode) (uid name : String)
    (mode : Nat) (perm : Nat) :
    nodeCreate a parent uid name mode perm ≠ .err (.msg "permission denied") := by
  simp only [nodeCreate]
  intro h
  repeat' split at h
  all_goals try simp_all
  all_goals
    first
      | exact newPath_ne_perm a (by assumption)
      | exact childOpen_ne_perm _ mode (by assumption)

/-- C9: Fid.Create checks the parent directory with the low three bits of
the requested permission word, not with write permission: the call
returns permission denied exactly when HasPerm(uid, perm and 7) on the
directory the fid references is false. In particular a requested perm
0444 needs only read permission on the parent. -/
theorem c9_create_perm_check (db : GroupMap) (a : pathAlloc) (parent : dirNode)
    (uid name : String) (mode : Nat) (perm : Nat) :
    fidCreate db a parent uid name mode perm = some (.err (.msg "permission denied")) ↔
      hasPerm db parent.dir uid (perm &&& 7) = some false := by
  rw [hasPerm_mask]
  rw [fidCreate]
  cases hp : hasPerm db parent.dir uid perm with
  | none => simp
  | some b =>
    cases b with
    | false => simp
    | true =>
      simp only [Option.some.injEq]
      constructor
      · intro h
        exact absurd h.symm (by
          intro hcontra
          exact nodeCreate_ne_perm a parent uid name mode perm hcontra.symm)
      · intro h
        cases h

end Ramfs
